import Mathlib

/-!
Verification of the `aws-lambda` serverless component.

The development shallowly embeds the two source files of the repository:

* `utils.js` — the archive builder (`packDir`, `getAllFiles`, `pack`),
  the remote-state reader (`getLambda`), the idempotent delete
  (`deleteLambda`), the diff predicate (`configChanged`) and the
  readiness poller (`waitUntilReady`);
* the component class (`AwsLambda.default`, `AwsLambda.createAlias`) —
  the reconciliation state machine.

Backend (AWS) calls are modelled by passing their outcomes as explicit
parameters; the reconciler produces the ordered trace of calls it issues
together with the baseline it saves, or the error it raises.
-/

namespace AwsLambdaSpec

/-! ## JavaScript-level modelling conventions

A JS object field that a constructor never sets is modelled as an
`Option` field fixed to `none`; reading `x[0]` when `x` is `undefined`
raises a `TypeError`, modelled by the `Except` error path. -/

/-- An AWS SDK error as observed in a `catch` block: only its `code`
string is ever inspected by the source. -/
structure AwsErr where
  code : String
deriving DecidableEq, Repr

/-- `GetFunctionConfiguration` response fields read by the source
(`utils.js`, `getLambda`), plus the `Architectures` field the backend
also reports but which `getLambda` never copies. -/
structure FnConfigResponse where
  FunctionName : String
  Description : String
  Timeout : Nat
  Runtime : String
  Role : String
  Handler : String
  MemorySize : Nat
  CodeSha256 : String
  Environment : Option (List (String × String))
  FunctionArn : String
  Architectures : List String
deriving DecidableEq, Repr

/-- The observed configuration built by `getLambda` (`utils.js` lines
201–214).  The JS object literal has exactly the ten keys below;
`architectures` is *not* among them, so the JS value of that key is
`undefined` — modelled by an `Option` field that `getLambda` leaves
`none`. -/
structure ObservedLambda where
  name : String
  description : String
  timeout : Nat
  runtime : String
  roleArn : String
  handler : String
  memory : Nat
  hash : String
  env : List (String × String)
  arn : String
  architectures : Option (List String)
deriving DecidableEq, Repr

/-- The success path of `getLambda`: field-by-field transcription of the
object literal returned at `utils.js` lines 201–214.  `Environment`
absent yields `{}`; `res.Architectures` is never read. -/
def getLambdaOk (res : FnConfigResponse) : ObservedLambda :=
  { name := res.FunctionName
    description := res.Description
    timeout := res.Timeout
    runtime := res.Runtime
    roleArn := res.Role
    handler := res.Handler
    memory := res.MemorySize
    hash := res.CodeSha256
    env := match res.Environment with
      | some v => v
      | none => []
    arn := res.FunctionArn
    architectures := none }

/-- `getLambda` (`utils.js` lines 193–221): the backend call outcome is
passed in; a `ResourceNotFoundException` is classified as the
distinguished absent result `none`, any other error is re-thrown. -/
def getLambda : Except AwsErr FnConfigResponse → Except AwsErr (Option ObservedLambda)
  | .ok res => .ok (some (getLambdaOk res))
  | .error e => if e.code = "ResourceNotFoundException" then .ok none else .error e

/-- `deleteLambda` (`utils.js` lines 223–232): errors other than
`ResourceNotFoundException` are re-thrown; a not-found delete is
swallowed (idempotent delete). -/
def deleteLambda : Except AwsErr Unit → Except AwsErr Unit
  | .ok _ => .ok ()
  | .error e => if e.code ≠ "ResourceNotFoundException" then .error e else .ok ()

/-- `AwsLambda.createAlias` catch clause: a `ResourceConflictException`
is treated as already-satisfied success; any other error is re-thrown. -/
def createAliasResult : Except AwsErr Unit → Except AwsErr Unit
  | .ok _ => .ok ()
  | .error e => if e.code = "ResourceConflictException" then .ok () else .error e

/-! ## Archive builder (`utils.js`: `getAllFiles`, `packDir`, `pack`) -/

/-- `VALID_FORMATS` (`utils.js` line 9). -/
def VALID_FORMATS : List String := ["zip", "tar"]

/-- `isValidFormat` (`utils.js` line 10). -/
def isValidFormat (format : String) : Bool := VALID_FORMATS.contains format

/-- `last(split('.', outputFilePath))` (`utils.js` line 29): the last
`.`-separated segment of the path — the whole path when it has no dot. -/
def formatOf (outputFilePath : String) : String :=
  String.mk ((outputFilePath.data.reverse.takeWhile (fun c => c ≠ '.')).reverse)

/-- Lexicographic comparison of character lists by code point: the
order JavaScript's default `Array.prototype.sort` applies to the
enumerated path strings. -/
def charListLe : List Char → List Char → Bool
  | [], _ => true
  | _ :: _, [] => false
  | a :: as, b :: bs => if a < b then true else if b < a then false else charListLe as bs

/-- The string order used by `.sort()` at `utils.js` line 42. -/
def jsStrLeR (a b : String) : Prop := charListLe a.data b.data = true

instance : DecidableRel jsStrLeR := fun _ _ => inferInstanceAs (Decidable (_ = true))

/-- A directory tree: what the filesystem under `sourceDir` holds.  The
order of a directory's entry list is the filesystem enumeration order
returned by `readdirSync`. -/
inductive FsEntry where
  | file (name : String) (content : String)
  | dir (name : String) (entries : List FsEntry)

mutual

/-- One step of `getAllFiles` (`utils.js` lines 12–26): a file
contributes `dirPath + "/" + name`, a directory recurses. -/
def getAllFilesEntry (dirPath : String) : FsEntry → List String
  | .file n _ => [dirPath ++ "/" ++ n]
  | .dir n es => getAllFiles (dirPath ++ "/" ++ n) es

/-- `getAllFiles` over a directory's entry list, in enumeration order. -/
def getAllFiles (dirPath : String) : List FsEntry → List String
  | [] => []
  | e :: es => getAllFilesEntry dirPath e ++ getAllFiles dirPath es

end

/-- Removes the first occurrence of `pat` from the character list;
`none` when `pat` does not occur. -/
def replaceFirstAux (pat : List Char) : List Char → Option (List Char)
  | [] => if pat.isEmpty then some [] else none
  | c :: rest =>
      if pat.isPrefixOf (c :: rest) then some (List.drop pat.length (c :: rest))
      else match replaceFirstAux pat rest with
        | some r => some (c :: r)
        | none => none

/-- JS `String.prototype.replace` with a string pattern and empty
replacement: deletes only the *first* occurrence (`utils.js` line 45
uses it to strip the input directory prefix); a string without the
pattern is returned unchanged. -/
def jsReplaceFirst (s pat : String) : String :=
  match replaceFirstAux pat.data s.data with
  | some r => String.mk r
  | none => s

/-- `path.basename`: last `/`-separated segment. -/
def basename (p : String) : String :=
  String.mk ((p.data.reverse.takeWhile (fun c => c ≠ '/')).reverse)

/-- One archive entry as appended by `archive.append`: entry name,
bytes streamed in, and the `date` option in milliseconds since the
epoch. -/
structure Entry where
  name : String
  content : String
  date : Nat
deriving DecidableEq, Repr

/-- The entry list `packDir` streams into the archive (`utils.js` lines
41–71): every enumerated file, sorted, each named by
`file.replace(inputDirPath, '')` and pinned to `new Date(0)`; then each
`include` (shim) file at the root under its basename, also pinned to
`new Date(0)`.  `contents` models `createReadStream`. -/
def buildEntries (inputDirPath : String) (files : List String)
    (contents : String → String) (shims : List String) : List Entry :=
  ((files.insertionSort jsStrLeR).map
      (fun f => { name := jsReplaceFirst f inputDirPath, content := contents f, date := 0 }))
    ++ shims.map (fun f => { name := basename f, content := contents f, date := 0 })

/-- The `patterns` array built at `utils.js` lines 35–39: `'**'`
followed by each exclude pattern prefixed with `!`.  (The source
computes it but never consults it afterwards.) -/
def packPatterns (exclude : List String) : List String :=
  "**" :: exclude.map (fun excludedItem => "!" ++ excludedItem)

/-- Filesystem side effects `packDir` performs, in order. -/
inductive FsEffect where
  | enumerate
  | openOutput
deriving DecidableEq, Repr

/-- `packDir` (`utils.js` lines 28–79): derive the format from the
output path's suffix and fail if it is not `zip`/`tar`; only then
enumerate the tree, open the output stream and append the entries.
The returned effect list records the I/O performed. -/
def packDir (inputDirPath outputFilePath : String) (tree : List FsEntry)
    (contents : String → String) (shims exclude : List String) :
    List FsEffect × Except String (List Entry) :=
  let format := formatOf outputFilePath
  if isValidFormat format then
    let _patterns := packPatterns exclude
    let files := getAllFiles inputDirPath tree
    ([.enumerate, .openOutput], .ok (buildEntries inputDirPath files contents shims))
  else
    ([], .error "Please provide a valid format. Either a \"zip\" or a \"tar\"")

/-- The exclude list `pack` (`utils.js` lines 260–278) passes to
`packDir`: `['node_modules/**']` when dependency packaging is disabled,
empty otherwise. -/
def packExclude (packDeps : Bool) : List String :=
  if packDeps then [] else ["node_modules/**"]

/-! ## Reconciler (`AwsLambda.default`) -/

/-- The desired configuration after merging defaults, resolving the
role and packaging (`config` in `AwsLambda.default` at the point of the
`getLambda` call). -/
structure Config where
  name : String
  description : String
  handler : String
  memory : Nat
  timeout : Nat
  runtime : String
  architectures : List String
  env : List (String × String)
  roleArn : String
  bucket : Option String
  hash : String
deriving DecidableEq, Repr

/-- `config.name = this.state.name || inputs.name || this.context.resourceId()`
(component line 58), with JS `||` over possibly-undefined strings. -/
def resolveName (stateName inputsName : Option String) (resourceId : String) : String :=
  match stateName with
  | some n => n
  | none => match inputsName with
    | some n => n
    | none => resourceId

/-- ramda `equals` on two JS objects of environment variables: same
keys and same value at every key, irrespective of insertion order. -/
def envEquals (a b : List (String × String)) : Bool :=
  (a.all fun kv => b.lookup kv.1 = some kv.2) && (b.all fun kv => a.lookup kv.1 = some kv.2)

/-- `configChanged(prevLambda, lambda)` (`utils.js` lines 252–258):
picks `description, runtime, role, handler, memory, timeout, env, hash`
from both sides (the role reduced to its `arn`) and returns whether the
two picks differ. -/
def configChanged (prevLambda : ObservedLambda) (lambda : Config) : Bool :=
  ¬(lambda.description = prevLambda.description
    ∧ lambda.runtime = prevLambda.runtime
    ∧ lambda.roleArn = prevLambda.roleArn
    ∧ lambda.handler = prevLambda.handler
    ∧ lambda.memory = prevLambda.memory
    ∧ lambda.timeout = prevLambda.timeout
    ∧ envEquals lambda.env prevLambda.env = true
    ∧ lambda.hash = prevLambda.hash)

/-- Errors `AwsLambda.default` can raise: the JS `TypeError` from
indexing an `undefined` field, or a re-thrown backend error. -/
inductive RunErr where
  | typeError
  | backend (e : AwsErr)
deriving DecidableEq, Repr

/-- `prevLambda.architectures[0]` (component line 107): indexing
`undefined` raises a `TypeError`; indexing an array yields its first
element or `undefined` (`none`). -/
def archHead (p : ObservedLambda) : Except RunErr (Option String) :=
  match p.architectures with
  | none => .error .typeError
  | some l => .ok l.head?

/-- A backend call issued by the reconciler, in issue order.  `create`
and `updateConfig` carry the desired configuration they send. -/
inductive Call where
  | create (cfg : Config)
  | updateCode (name : String) (bucket : Option String)
  | updateConfig (cfg : Config)
  | wait (name : String)
  | deleteFn (name : String)
deriving DecidableEq, Repr

/-- Result of a successful mutating call: the fields the source reads
(`FunctionArn`, `CodeSha256`). -/
structure MutResult where
  arn : String
  hash : String
deriving DecidableEq, Repr

/-- The slice of the saved state (`this.state`) the claims are about. -/
structure Baseline where
  name : String
  arn : String
  hash : String
deriving DecidableEq, Repr

/-- Component lines 126–129: the old-named function is deleted when a
previous baseline name exists and differs from the resolved name. -/
def renameCalls (stateName : Option String) (cfgName : String) : List Call :=
  match stateName with
  | some n => if n ≠ cfgName then [.deleteFn n] else []
  | none => []

/-- Component lines 112–121: the config update is attempted inside
`try`; on success the waiter runs and the returned hash is kept, on
failure the error is logged and swallowed, the local hash stands. -/
def configUpdateStep (stateName : Option String) (cfg : Config) (prevArn : String)
    (updateCfgRes : Except AwsErr MutResult) (codeCalls : List Call) :
    List Call × Baseline :=
  match updateCfgRes with
  | .ok r =>
      (codeCalls ++ [.updateConfig cfg, .wait cfg.name] ++ renameCalls stateName cfg.name,
       { name := cfg.name, arn := prevArn, hash := r.hash })
  | .error _ =>
      (codeCalls ++ [.updateConfig cfg] ++ renameCalls stateName cfg.name,
       { name := cfg.name, arn := prevArn, hash := cfg.hash })

/-- The reconciliation state machine of `AwsLambda.default` (component
lines 96–138), from the `getLambda` snapshot on.  Backend outcomes for
the create, code-update and config-update calls are passed in;
the result is the ordered trace of issued calls and the saved baseline,
or the raised error. -/
def reconcile (stateName : Option String) (cfg : Config) (prev : Option ObservedLambda)
    (createRes : Except AwsErr MutResult)
    (updateCodeRes : Except AwsErr String)
    (updateCfgRes : Except AwsErr MutResult) :
    Except RunErr (List Call × Baseline) :=
  match prev with
  | none =>
      match createRes with
      | .error e => .error (.backend e)
      | .ok r =>
          .ok ([.create cfg, .wait cfg.name] ++ renameCalls stateName cfg.name,
               { name := cfg.name, arn := r.arn, hash := r.hash })
  | some p =>
      if configChanged p cfg then
        match archHead p with
        | .error e => .error e
        | .ok prevArch0 =>
            if prevArch0 ≠ cfg.architectures.head?
                ∨ (cfg.bucket.isNone ∧ p.hash ≠ cfg.hash) then
              match updateCodeRes with
              | .error e => .error (.backend e)
              | .ok _ =>
                  .ok (configUpdateStep stateName cfg p.arn updateCfgRes
                        [.updateCode cfg.name cfg.bucket, .wait cfg.name])
            else
              .ok (configUpdateStep stateName cfg p.arn updateCfgRes [])
      else
        .ok (renameCalls stateName cfg.name, { name := cfg.name, arn := p.arn, hash := cfg.hash })

/-! ## Readiness waiter (`utils.js`: `waitUntilReady`) -/

/-- `State === "Active" && LastUpdateStatus === "Successful"`
(`utils.js` line 287). -/
def isReady (state lastUpdateStatus : String) : Bool :=
  state = "Active" ∧ lastUpdateStatus = "Successful"

/-- The polling loop of `waitUntilReady` (`utils.js` lines 285–292):
before the `k`-th poll the elapsed time is `k * pollInterval`
milliseconds; while it is below the 600000 ms maximum the descriptor is
fetched and readiness checked, otherwise `false` is returned.  `fuel`
bounds the recursion and is chosen large enough never to run out for a
positive interval. -/
def waitLoop (backend : Nat → String × String) (pollInterval : Nat) :
    Nat → Nat → Bool
  | 0, _ => false
  | fuel + 1, k =>
      if k * pollInterval < 600000 then
        if isReady (backend k).1 (backend k).2 then true
        else waitLoop backend pollInterval fuel (k + 1)
      else false

/-- `waitUntilReady(lambda, context, fnName, pollInterval = 5000)`:
polls every `pollInterval` ms (default 5000, no backoff) up to the
600000 ms maximum wait; `backend k` is the `(State, LastUpdateStatus)`
pair of the `k`-th `getFunction` reply. -/
def waitUntilReady (backend : Nat → String × String) (pollInterval : Nat := 5000) : Bool :=
  waitLoop backend pollInterval 600001 0

/-! ## Same tree up to filesystem enumeration order -/

mutual

/-- Two filesystem trees hold the same files with the same contents,
differing at most in the order in which each directory enumerates its
entries. -/
inductive SameTree : FsEntry → FsEntry → Prop where
  | file (name content : String) : SameTree (.file name content) (.file name content)
  | dir (name : String) {es₁ es₂ : List FsEntry} (h : SameList es₁ es₂) :
      SameTree (.dir name es₁) (.dir name es₂)

/-- Entry lists equal up to reordering, with `SameTree`-equivalent
elements (the permutation closure: nil, congruent cons, adjacent swap,
transitivity). -/
inductive SameList : List FsEntry → List FsEntry → Prop where
  | nil : SameList [] []
  | cons {e₁ e₂ : FsEntry} {es₁ es₂ : List FsEntry} (he : SameTree e₁ e₂)
      (hes : SameList es₁ es₂) : SameList (e₁ :: es₁) (e₂ :: es₂)
  | swap (e₁ e₂ : FsEntry) (es : List FsEntry) :
      SameList (e₁ :: e₂ :: es) (e₂ :: e₁ :: es)
  | trans {l₁ l₂ l₃ : List FsEntry} (h₁ : SameList l₁ l₂) (h₂ : SameList l₂ l₃) :
      SameList l₁ l₃

end

/-! ## Concrete sample inputs used by witnesses and counterexamples -/

/-- A sample `getFunctionConfiguration` reply for a deployed function. -/
def resp0 : FnConfigResponse :=
  { FunctionName := "my-function"
    Description := "AWS Lambda Component"
    Timeout := 10
    Runtime := "nodejs18.x"
    Role := "arn:aws:iam::123456789012:role/lambda-role"
    Handler := "handler.hello"
    MemorySize := 512
    CodeSha256 := "sha-old"
    Environment := some []
    FunctionArn := "arn:aws:lambda:us-east-1:123456789012:function:my-function"
    Architectures := ["arm64"] }

/-- A desired configuration whose packaged code hash differs from
`resp0`'s observed hash; no storage bucket. -/
def cfg0 : Config :=
  { name := "my-function"
    description := "AWS Lambda Component"
    handler := "handler.hello"
    memory := 512
    timeout := 10
    runtime := "nodejs18.x"
    architectures := ["arm64"]
    env := []
    roleArn := "arn:aws:iam::123456789012:role/lambda-role"
    bucket := none
    hash := "sha-new" }

/-- A desired configuration agreeing with `resp0` on every compared
field. -/
def cfg1 : Config :=
  { cfg0 with hash := "sha-old" }

/-- An observed record whose `architectures` key is present (as the
update branch expects), with a differing architecture. -/
def prevWithArch : ObservedLambda :=
  { getLambdaOk resp0 with architectures := some ["x86_64"] }

/-- A sample source tree: a root file plus a vendored-dependencies
directory. -/
def tree0 : List FsEntry :=
  [.file "index.js" "main source", .dir "node_modules" [.file "dep.js" "dependency"]]

/-- `tree0` with the two root entries enumerated in the other order. -/
def tree0' : List FsEntry :=
  [.dir "node_modules" [.file "dep.js" "dependency"], .file "index.js" "main source"]

/-! ## Helper lemmas -/

/-- Enumeration-order changes permute the file list `getAllFiles`
collects (mutual induction over the `SameTree`/`SameList` derivation,
via the generated recursor). -/
theorem getAllFiles_perm {l₁ l₂ : List FsEntry} (h : SameList l₁ l₂) :
    ∀ d, List.Perm (getAllFiles d l₁) (getAllFiles d l₂) :=
  @SameList.rec
    (fun t₁ t₂ _ => ∀ d, List.Perm (getAllFilesEntry d t₁) (getAllFilesEntry d t₂))
    (fun l₁ l₂ _ => ∀ d, List.Perm (getAllFiles d l₁) (getAllFiles d l₂))
    (fun _ _ _ => .refl _)
    (fun n {es₁ es₂} h ih d => ih (d ++ "/" ++ n))
    (fun _ => .refl _)
    (fun {e₁ e₂ es₁ es₂} he hes ih₁ ih₂ d => by
      simp only [getAllFiles]
      exact (ih₁ d).append (ih₂ d))
    (fun e₁ e₂ es d => by
      simp only [getAllFiles]
      exact List.perm_append_comm_assoc _ _ _)
    (fun {l₁ l₂ l₃} h₁ h₂ ih₁ ih₂ d => (ih₁ d).trans (ih₂ d))
    _ _ h

/-- The JS string order is total. -/
theorem charListLe_total : ∀ a b : List Char, charListLe a b = true ∨ charListLe b a = true := by
  intro a
  induction a with
  | nil => intro b; left; cases b <;> rfl
  | cons x xs ih =>
      intro b
      cases b with
      | nil => right; rfl
      | cons y ys =>
          rcases lt_trichotomy x y with h | h | h
          · left; simp [charListLe, h]
          · subst h
            rcases ih ys with h2 | h2
            · left; simp [charListLe, lt_irrefl, h2]
            · right; simp [charListLe, lt_irrefl, h2]
          · right; simp [charListLe, h]

/-- The JS string order is transitive. -/
theorem charListLe_trans : ∀ a b c : List Char,
    charListLe a b = true → charListLe b c = true → charListLe a c = true := by
  intro a
  induction a with
  | nil => intro b c _ _; rfl
  | cons x xs ih =>
      intro b c hab hbc
      cases b with
      | nil => simp [charListLe] at hab
      | cons y ys =>
          cases c with
          | nil => simp [charListLe] at hbc
          | cons z zs =>
              simp only [charListLe] at hab hbc ⊢
              by_cases hxy : x < y
              · by_cases hyz : y < z
                · simp [lt_trans hxy hyz]
                · by_cases hzy : z < y
                  · simp [hyz, hzy] at hbc
                  · have hyz2 : y = z := le_antisymm (not_lt.mp hzy) (not_lt.mp hyz)
                    subst hyz2
                    simp [hxy]
              · by_cases hyx : y < x
                · simp [hxy, hyx] at hab
                · have hxy2 : x = y := le_antisymm (not_lt.mp hyx) (not_lt.mp hxy)
                  subst hxy2
                  simp only [lt_irrefl, if_neg, ite_self, if_false] at hab
                  by_cases hxz : x < z
                  · simp [hxz]
                  · by_cases hzx : z < x
                    · simp [hxz, hzx] at hbc
                    · have hxz2 : x = z := le_antisymm (not_lt.mp hzx) (not_lt.mp hxz)
                      subst hxz2
                      simp only [lt_irrefl, if_neg, ite_self, if_false] at hbc ⊢
                      exact ih ys zs hab hbc

/-- The JS string order is antisymmetric. -/
theorem charListLe_antisymm : ∀ a b : List Char,
    charListLe a b = true → charListLe b a = true → a = b := by
  intro a
  induction a with
  | nil =>
      intro b hab hba
      cases b with
      | nil => rfl
      | cons y ys => simp [charListLe] at hba
  | cons x xs ih =>
      intro b hab hba
      cases b with
      | nil => simp [charListLe] at hab
      | cons y ys =>
          simp only [charListLe] at hab hba
          by_cases hxy : x < y
          · simp [asymm hxy, hxy] at hba
          · by_cases hyx : y < x
            · simp [hxy, hyx] at hab
            · have hxy2 : x = y := le_antisymm (not_lt.mp hyx) (not_lt.mp hxy)
              subst hxy2
              simp only [lt_irrefl, if_neg, ite_self, if_false] at hab hba
              rw [ih ys hab hba]

/-- Two sorted rearrangements of the same path list coincide (the JS
string order is linear, so the sorted arrangement is unique). -/
theorem insertionSort_eq_of_perm {l₁ l₂ : List String} (h : List.Perm l₁ l₂) :
    l₁.insertionSort jsStrLeR = l₂.insertionSort jsStrLeR := by
  haveI : IsTotal String jsStrLeR := ⟨fun a b => charListLe_total a.data b.data⟩
  haveI : IsTrans String jsStrLeR := ⟨fun a b c => charListLe_trans a.data b.data c.data⟩
  haveI : IsAntisymm String jsStrLeR :=
    ⟨fun a b h₁ h₂ => String.ext (charListLe_antisymm a.data b.data h₁ h₂)⟩
  exact List.eq_of_perm_of_sorted
    ((List.perm_insertionSort _ l₁).trans (h.trans (List.perm_insertionSort _ l₂).symm))
    (List.sorted_insertionSort _ l₁) (List.sorted_insertionSort _ l₂)

/-- The archive entry list depends only on the set of enumerated files,
not on their enumeration order. -/
theorem buildEntries_eq_of_perm (d : String) (contents : String → String)
    (shims : List String) {f₁ f₂ : List String} (h : List.Perm f₁ f₂) :
    buildEntries d f₁ contents shims = buildEntries d f₂ contents shims := by
  unfold buildEntries
  rw [insertionSort_eq_of_perm h]

/-- Every entry `packDir` appends — source file or shim — carries the
epoch timestamp. -/
theorem buildEntries_date_pinned (d : String) (f : List String)
    (contents : String → String) (shims : List String) :
    ∀ e ∈ buildEntries d f contents shims, e.date = 0 := by
  intro e he
  simp only [buildEntries, List.mem_append, List.mem_map] at he
  rcases he with ⟨x, _, rfl⟩ | ⟨x, _, rfl⟩ <;> rfl

/-- The polling loop returns `true` exactly when some poll inside the
maximum-wait window observes readiness, provided the fuel covers every
poll index inside the window. -/
theorem waitLoop_true_iff (backend : Nat → String × String) (p : Nat) :
    ∀ fuel k, (∀ j, k ≤ j → j * p < 600000 → j - k < fuel) →
      (waitLoop backend p fuel k = true ↔
        ∃ j, k ≤ j ∧ j * p < 600000 ∧ isReady (backend j).1 (backend j).2 = true) := by
  intro fuel
  induction fuel with
  | zero =>
      intro k hside
      constructor
      · intro h
        simp [waitLoop] at h
      · rintro ⟨j, hkj, hlt, _⟩
        have := hside j hkj hlt
        omega
  | succ fuel ih =>
      intro k hside
      by_cases hk : k * p < 600000
      · by_cases hr : isReady (backend k).1 (backend k).2 = true
        · constructor
          · intro _
            exact ⟨k, Nat.le_refl k, hk, hr⟩
          · intro _
            simp [waitLoop, hk, hr]
        · have hrec := ih (k + 1) (fun j hj hlt => by
            have := hside j (by omega) hlt
            omega)
          constructor
          · intro h
            simp only [waitLoop, if_pos hk, hr, if_neg] at h
            obtain ⟨j, hj, hlt, hready⟩ := hrec.mp h
            exact ⟨j, by omega, hlt, hready⟩
          · rintro ⟨j, hkj, hlt, hready⟩
            have hjk : k + 1 ≤ j := by
              rcases Nat.eq_or_lt_of_le hkj with rfl | hlt2
              · exact absurd hready hr
              · omega
            simp only [waitLoop, if_pos hk, hr, if_neg]
            exact hrec.mpr ⟨j, hjk, hlt, hready⟩
      · constructor
        · intro h
          simp [waitLoop, hk] at h
        · rintro ⟨j, hkj, hlt, _⟩
          have := Nat.mul_le_mul_right p hkj
          omega

/-! ## Claim theorems -/

/-- Claim C7: classified backend errors are absorbed and everything else
propagates — a not-found read yields the distinguished absent result, a
not-found delete is already-satisfied success, a resource-conflict alias
creation is already-satisfied success, and any other error on each of
these calls propagates. -/
theorem classified_errors_absorbed (e : AwsErr) (res : FnConfigResponse) :
    getLambda (.ok res) = .ok (some (getLambdaOk res))
    ∧ (e.code = "ResourceNotFoundException" →
        getLambda (.error e) = .ok none ∧ deleteLambda (.error e) = .ok ())
    ∧ (e.code ≠ "ResourceNotFoundException" →
        getLambda (.error e) = .error e ∧ deleteLambda (.error e) = .error e)
    ∧ (e.code = "ResourceConflictException" → createAliasResult (.error e) = .ok ())
    ∧ (e.code ≠ "ResourceConflictException" → createAliasResult (.error e) = .error e) := by
  refine ⟨rfl, ?_, ?_, ?_, ?_⟩ <;> intro h <;>
    simp [getLambda, deleteLambda, createAliasResult, h]

/-- Witness for C7 at two concrete errors. -/
theorem classified_errors_absorbed_witness :
    (getLambda (.error { code := "ResourceNotFoundException" }) = .ok none
      ∧ deleteLambda (.error { code := "ResourceNotFoundException" }) = .ok ())
    ∧ createAliasResult (.error { code := "AccessDenied" }) =
        .error { code := "AccessDenied" } :=
  ⟨(classified_errors_absorbed { code := "ResourceNotFoundException" } resp0).2.1 rfl,
   (classified_errors_absorbed { code := "AccessDenied" } resp0).2.2.2.2 (by decide)⟩

/-- Claim C9: an output path whose suffix — the segment after the last
dot — is neither `zip` nor `tar` makes `packDir` fail with the
invalid-format error before performing any filesystem effect: no
enumeration, no output stream, no entries. -/
theorem invalid_format_fails_before_io (inputDirPath outputFilePath : String)
    (tree : List FsEntry) (contents : String → String) (shims exclude : List String)
    (h₁ : formatOf outputFilePath ≠ "zip") (h₂ : formatOf outputFilePath ≠ "tar") :
    packDir inputDirPath outputFilePath tree contents shims exclude =
      ([], .error "Please provide a valid format. Either a \"zip\" or a \"tar\"") := by
  have hv : isValidFormat (formatOf outputFilePath) = false := by
    simp [isValidFormat, VALID_FORMATS, h₁, h₂]
  simp [packDir, hv]

/-- Witness for C9 at a `.rar` output path. -/
theorem invalid_format_fails_before_io_witness :
    packDir "/src" "/tmp/out.rar" tree0 (fun _ => "bytes") [] [] =
      ([], .error "Please provide a valid format. Either a \"zip\" or a \"tar\"") :=
  invalid_format_fails_before_io "/src" "/tmp/out.rar" tree0 (fun _ => "bytes") [] []
    (by decide) (by decide)

/-- Claim C1: packaging the same source tree and shim list twice with
the same output path yields identical archives — hence identical
content hashes — independently of the order in which the filesystem
enumerates directory entries, and every entry, source file or shim,
carries the pinned epoch timestamp. -/
theorem packaging_deterministic (inputDirPath outputFilePath : String)
    {es₁ es₂ : List FsEntry} (contents : String → String) (shims exclude : List String)
    (h : SameList es₁ es₂) :
    packDir inputDirPath outputFilePath es₁ contents shims exclude =
      packDir inputDirPath outputFilePath es₂ contents shims exclude
    ∧ (∀ hashFile : List Entry → String,
        hashFile (buildEntries inputDirPath (getAllFiles inputDirPath es₁) contents shims) =
          hashFile (buildEntries inputDirPath (getAllFiles inputDirPath es₂) contents shims))
    ∧ ∀ e ∈ buildEntries inputDirPath (getAllFiles inputDirPath es₁) contents shims,
        e.date = 0 := by
  have hb := buildEntries_eq_of_perm inputDirPath contents shims
    (getAllFiles_perm h inputDirPath)
  refine ⟨?_, fun hashFile => by rw [hb], buildEntries_date_pinned _ _ _ _⟩
  simp only [packDir]
  rw [hb]

/-- Witness for C1: the two enumeration orders of `tree0` produce the
same archive. -/
theorem packaging_deterministic_witness :
    packDir "/src" "/tmp/out.zip" tree0 (fun p => p) ["/opt/shims/binary"] [] =
      packDir "/src" "/tmp/out.zip" tree0' (fun p => p) ["/opt/shims/binary"] [] :=
  (packaging_deterministic "/src" "/tmp/out.zip" (fun p => p) ["/opt/shims/binary"] []
    (SameList.swap _ _ _)).1

/-- Claim C4 (code observation): `pack` with dependency packaging
disabled hands `packDir` the `node_modules/**` exclude pattern, and
`packDir` turns it into the `patterns` array — but the artifact entry
list still contains the vendored file: no pruning is applied. -/
theorem exclude_patterns_not_applied :
    packExclude false = ["node_modules/**"]
    ∧ packPatterns (packExclude false) = ["**", "!node_modules/**"]
    ∧ (packDir "/src" "/tmp/out.zip" tree0 (fun _ => "bytes") [] (packExclude false)).2 =
        .ok [{ name := "/index.js", content := "bytes", date := 0 },
             { name := "/node_modules/dep.js", content := "bytes", date := 0 }] := by
  refine ⟨rfl, rfl, ?_⟩
  rfl

/-- Claim C10: the observed record `getLambda` builds never carries an
`architectures` field — whatever `Architectures` the backend reported —
so once any compared field differs, the update branch's unguarded read
of `architectures[0]` evaluates over an absent field (the `TypeError`
path) instead of the backend's actual architecture. -/
theorem observed_record_lacks_architectures (res : FnConfigResponse)
    (stateName : Option String) (cfg : Config)
    (createRes : Except AwsErr MutResult) (updateCodeRes : Except AwsErr String)
    (updateCfgRes : Except AwsErr MutResult) :
    (getLambdaOk res).architectures = none
    ∧ archHead (getLambdaOk res) = .error .typeError
    ∧ (configChanged (getLambdaOk res) cfg = true →
        reconcile stateName cfg (some (getLambdaOk res)) createRes updateCodeRes
          updateCfgRes = .error .typeError) := by
  refine ⟨rfl, rfl, fun h => ?_⟩
  have ha : archHead (getLambdaOk res) = .error .typeError := rfl
  simp [reconcile, h, ha]

/-- Witness for C10 at a concrete differing-hash reconcile. -/
theorem observed_record_lacks_architectures_witness :
    configChanged (getLambdaOk resp0) cfg0 = true
    ∧ reconcile none cfg0 (some (getLambdaOk resp0)) (.ok { arn := "a", hash := "h" })
        (.ok "a") (.ok { arn := "a", hash := "h2" }) = .error .typeError :=
  ⟨by decide,
   (observed_record_lacks_architectures resp0 none cfg0 (.ok { arn := "a", hash := "h" })
     (.ok "a") (.ok { arn := "a", hash := "h2" })).2.2 (by decide)⟩

/-- Claim C3: when the observed state equals the desired one on every
compared field (description, runtime, role, handler, memory, timeout,
environment, hash) and the resolved name keeps the baseline name, the
reconciler is a no-op: it issues no create, code-update, config-update
or delete call and re-saves the unchanged data. -/
theorem noop_when_unchanged (stateName inputsName : Option String) (resourceId : String)
    (cfg : Config) (p : ObservedLambda)
    (createRes : Except AwsErr MutResult) (updateCodeRes : Except AwsErr String)
    (updateCfgRes : Except AwsErr MutResult)
    (hname : cfg.name = resolveName stateName inputsName resourceId)
    (hsame : configChanged p cfg = false) :
    reconcile stateName cfg (some p) createRes updateCodeRes updateCfgRes =
      .ok ([], { name := cfg.name, arn := p.arn, hash := cfg.hash }) := by
  have hrn : renameCalls stateName cfg.name = [] := by
    cases stateName with
    | none => rfl
    | some n => simp [renameCalls, hname, resolveName]
  simp [reconcile, hsame, hrn]

/-- Witness for C3 with a desired config matching `resp0`. -/
theorem noop_when_unchanged_witness :
    reconcile (some "my-function") cfg1 (some (getLambdaOk resp0))
      (.ok { arn := "a", hash := "h" }) (.ok "a") (.ok { arn := "a", hash := "h" }) =
      .ok ([], { name := cfg1.name, arn := (getLambdaOk resp0).arn, hash := cfg1.hash }) :=
  noop_when_unchanged (some "my-function") none "generated-id" cfg1 (getLambdaOk resp0)
    (.ok { arn := "a", hash := "h" }) (.ok "a") (.ok { arn := "a", hash := "h" })
    rfl (by decide)

/-- Claim C5: an absent observed state always takes the create
transition — exactly one create call carrying the full desired
configuration, followed by a readiness wait, never an update call — and
the backend-assigned ARN and backend-computed hash are captured into
the saved baseline. -/
theorem absent_yields_create (stateName inputsName : Option String) (resourceId : String)
    (cfg : Config) (r : MutResult)
    (updateCodeRes : Except AwsErr String) (updateCfgRes : Except AwsErr MutResult)
    (hname : cfg.name = resolveName stateName inputsName resourceId) :
    reconcile stateName cfg none (.ok r) updateCodeRes updateCfgRes =
      .ok ([.create cfg, .wait cfg.name],
           { name := cfg.name, arn := r.arn, hash := r.hash }) := by
  have hrn : renameCalls stateName cfg.name = [] := by
    cases stateName with
    | none => rfl
    | some n => simp [renameCalls, hname, resolveName]
  simp [reconcile, hrn]

/-- Witness for C5 at a concrete create result. -/
theorem absent_yields_create_witness :
    reconcile none cfg0 none (.ok { arn := "arn:new", hash := "sha-remote" })
      (.ok "a") (.ok { arn := "a", hash := "h" }) =
      .ok ([.create cfg0, .wait cfg0.name],
           { name := cfg0.name, arn := "arn:new", hash := "sha-remote" }) :=
  absent_yields_create none (some "my-function") "generated-id" cfg0
    { arn := "arn:new", hash := "sha-remote" } (.ok "a") (.ok { arn := "a", hash := "h" })
    rfl

/-- Claim C6: once the update branch reaches the config-update call, a
failure of that call is swallowed: the reconcile still completes
successfully, a preceding successful code update stays in the trace,
and the baseline is still saved (keeping the locally computed hash). -/
theorem config_update_failure_swallowed (stateName : Option String)
    (cfg : Config) (p : ObservedLambda) (l : List String)
    (createRes : Except AwsErr MutResult) (okArn : String) (err : AwsErr)
    (harch : p.architectures = some l)
    (hdiff : configChanged p cfg = true) :
    reconcile stateName cfg (some p) createRes (.ok okArn) (.error err) =
      .ok ((if l.head? ≠ cfg.architectures.head? ∨ (cfg.bucket.isNone ∧ p.hash ≠ cfg.hash)
              then [.updateCode cfg.name cfg.bucket, .wait cfg.name] else [])
            ++ [.updateConfig cfg] ++ renameCalls stateName cfg.name,
           { name := cfg.name, arn := p.arn, hash := cfg.hash }) := by
  simp only [reconcile, hdiff, archHead, harch, if_true]
  split
  · simp [configUpdateStep]
  · simp [configUpdateStep]

/-- Witness for C6: code update issued and kept, config failure
swallowed. -/
theorem config_update_failure_swallowed_witness :
    reconcile (some "my-function") cfg0 (some prevWithArch)
      (.ok { arn := "a", hash := "h" }) (.ok "arn:new") (.error { code := "Throttling" }) =
      .ok ([.updateCode cfg0.name cfg0.bucket, .wait cfg0.name, .updateConfig cfg0],
           { name := cfg0.name, arn := prevWithArch.arn, hash := cfg0.hash }) := by
  have h := config_update_failure_swallowed (some "my-function") cfg0 prevWithArch
    ["x86_64"] (.ok { arn := "a", hash := "h" }) "arn:new" { code := "Throttling" }
    rfl (by decide)
  simpa using h

/-- Claim C2 (code evaluation): in the evaluate branch with a changed
content hash and no bucket, the reconciler does not issue the claimed
code-replacement call — it raises the `TypeError` from reading
`architectures[0]` off the observed record, which has no such field. -/
theorem evaluate_branch_raises_type_error :
    reconcile (some "my-function") cfg0 (some (getLambdaOk resp0))
      (.ok { arn := "a", hash := "h" }) (.ok "arn:new") (.ok { arn := "a", hash := "h2" }) =
      .error .typeError := by
  rfl

/-- Claim C8: the readiness poller, polling at a fixed positive
interval with no backoff, returns `true` exactly when some poll within
the 600000 ms maximum wait observes lifecycle state `Active` with last
update status `Successful`; with no such poll it returns `false`
instead of raising. -/
theorem readiness_waiter_iff (backend : Nat → String × String) (p : Nat) (hp : 0 < p) :
    (waitUntilReady backend p = true ↔
      ∃ k, k * p < 600000 ∧ isReady (backend k).1 (backend k).2 = true) := by
  have h := waitLoop_true_iff backend p 600001 0 (fun j _ hlt => by
    have hj : j ≤ j * p := Nat.le_mul_of_pos_right j hp
    omega)
  simpa using h

/-- Witness for C8: an immediately ready backend yields `true` at the
default 5000 ms interval. -/
theorem readiness_waiter_iff_witness :
    waitUntilReady (fun _ => ("Active", "Successful")) 5000 = true :=
  (readiness_waiter_iff (fun _ => ("Active", "Successful")) 5000 (by decide)).mpr
    ⟨0, by decide, by decide⟩

end AwsLambdaSpec
